import Mathlib

/-!
Verification of the CSV ingestion and validation pipeline
(`app/utils/validators.py` / `app/shared/validators.py` `CSVValidator`,
`app/services/file_service.py` `FileService`, repository contract in
`app/modules/csv/repository.py`).

The Python code is shallowly embedded: byte strings become `List Nat`,
Python `str` becomes `String`, `csv.DictReader` rows (Python dicts with
string keys plus the possible `None` rest-key) become insertion-ordered
association lists over `Option String` keys, and the exception-based
control flow of `validate_csv` becomes explicit `Except` propagation.
-/

/-- A value stored in a `csv.DictReader` row dict: a parsed cell string,
the `restval` sentinel `None` used to pad short rows, or the `restkey`
list collecting the extra cells of long rows. -/
inductive PyVal where
  | vStr (s : String)
  | vNone
  | vList (xs : List String)
deriving DecidableEq

/-- A parsed row: an insertion-ordered Python dict.  String keys are the
header field names (`some name`); the `restkey` of `csv.DictReader` is the
Python `None` key (`none`). -/
abbrev Row := List (Option String × PyVal)

/-- Python `str.strip()` on a character list: drop leading and trailing
whitespace (structurally recursive, so the kernel can evaluate it). -/
def stripChars (cs : List Char) : List Char :=
  ((cs.dropWhile Char.isWhitespace).reverse.dropWhile Char.isWhitespace).reverse

/-- Python `str.strip()`. -/
def pyStrip (s : String) : String := String.mk (stripChars s.data)

/-- Python `str.lower()` (ASCII case folding, which covers the header
names the check compares against). -/
def pyLower (s : String) : String := String.mk (s.data.map Char.toLower)

/-- Python `sep.join(xs)` (structurally recursive). -/
def joinSep (sep : String) : List String → String
  | [] => ""
  | [x] => x
  | x :: xs => x ++ sep ++ joinSep sep xs

/-- Python `str(v)` for the values reachable in the validator.  The exact
`repr` text of a list value is abbreviated: list values only ever live
under the `None` rest-key, which the checks never read. -/
def pyStr : PyVal → String
  | .vStr s => s
  | .vNone => "None"
  | .vList xs => "[" ++ joinSep ", " xs ++ "]"

/-- Python truthiness of the values reachable in the validator. -/
def pyTruthy : PyVal → Bool
  | .vStr s => s ≠ ""
  | .vNone => false
  | .vList xs => xs ≠ []

/-- Python `d[k] = v` on an insertion-ordered dict: overwrite in place if
the key exists, otherwise append. -/
def pyDictInsert (d : Row) (k : Option String) (v : PyVal) : Row :=
  if d.any (fun kv => kv.1 = k) then
    d.map (fun kv => if kv.1 = k then (kv.1, v) else kv)
  else d ++ [(k, v)]

/-- Python `d.get(k, default)`. -/
def pyDictGet (d : Row) (k : Option String) (default : PyVal) : PyVal :=
  match d.find? (fun kv => kv.1 = k) with
  | some kv => kv.2
  | none => default

/-- Whether a byte is a UTF-8 continuation byte (`0x80`–`0xBF`). -/
def isCont (b : Nat) : Bool := 0x80 ≤ b && b ≤ 0xBF

/-- Decode one UTF-8 scalar value from the head of the byte list,
returning the code point and the remaining bytes.  Faithful to Python's
strict `bytes.decode("utf-8")`: overlong encodings, surrogates and code
points above `0x10FFFF` are rejected. -/
def utf8DecodeStep : List Nat → Except String (Nat × List Nat)
  | [] => .error "unexpected end of data"
  | b :: rest =>
    if b < 0x80 then .ok (b, rest)
    else if 0xC2 ≤ b && b ≤ 0xDF then
      match rest with
      | b2 :: rest2 =>
        if isCont b2 then .ok ((b - 0xC0) * 0x40 + (b2 - 0x80), rest2)
        else .error "invalid continuation byte"
      | [] => .error "unexpected end of data"
    else if 0xE0 ≤ b && b ≤ 0xEF then
      match rest with
      | b2 :: b3 :: rest3 =>
        let second_ok :=
          if b = 0xE0 then 0xA0 ≤ b2 && b2 ≤ 0xBF
          else if b = 0xED then 0x80 ≤ b2 && b2 ≤ 0x9F
          else isCont b2
        if second_ok && isCont b3 then
          .ok ((b - 0xE0) * 0x1000 + (b2 - 0x80) * 0x40 + (b3 - 0x80), rest3)
        else .error "invalid continuation byte"
      | _ => .error "unexpected end of data"
    else if 0xF0 ≤ b && b ≤ 0xF4 then
      match rest with
      | b2 :: b3 :: b4 :: rest4 =>
        let second_ok :=
          if b = 0xF0 then 0x90 ≤ b2 && b2 ≤ 0xBF
          else if b = 0xF4 then 0x80 ≤ b2 && b2 ≤ 0x8F
          else isCont b2
        if second_ok && isCont b3 && isCont b4 then
          .ok ((b - 0xF0) * 0x40000 + (b2 - 0x80) * 0x1000 +
               (b3 - 0x80) * 0x40 + (b4 - 0x80), rest4)
        else .error "invalid continuation byte"
      | _ => .error "unexpected end of data"
    else .error "invalid start byte"

/-- Fuel-indexed UTF-8 decoding loop; the fuel is an upper bound on the
number of decoded characters (each step consumes at least one byte). -/
def utf8DecodeGo : Nat → List Nat → Except String (List Char)
  | _, [] => .ok []
  | 0, _ :: _ => .error "unexpected end of data"
  | fuel + 1, bs =>
    match utf8DecodeStep bs with
    | .error e => .error e
    | .ok (c, rest) =>
      match utf8DecodeGo fuel rest with
      | .error e => .error e
      | .ok cs => .ok (Char.ofNat c :: cs)

/-- Python `file_content.decode("utf-8")`: either the decoded character
list or a decode failure. -/
def utf8Decode (bs : List Nat) : Except String (List Char) :=
  utf8DecodeGo bs.length bs

/-- Translate `\r\n` and bare `\r` to `\n`, as `io.StringIO` does in
universal-newlines mode when the decoded text is read back line by line. -/
def normNewlines : List Char → List Char
  | [] => []
  | '\r' :: '\n' :: rest => '\n' :: normNewlines rest
  | '\r' :: rest => '\n' :: normNewlines rest
  | c :: rest => c :: normNewlines rest

/-- Split a character list on a separator; always returns at least one
(possibly empty) segment. -/
def splitOnChar (sep : Char) (cs : List Char) : List (List Char) :=
  cs.foldr
    (fun c acc =>
      match acc with
      | [] => if c = sep then [[], []] else [[c]]
      | s :: ss => if c = sep then [] :: s :: ss else (c :: s) :: ss)
    [[]]

/-- The lines produced by iterating a `StringIO` over the text: split on
(normalized) `\n`, with no empty final line after a trailing newline and
no lines at all for empty text. -/
def linesOf (cs : List Char) : List (List Char) :=
  let segs := splitOnChar '\n' (normNewlines cs)
  if segs.getLast? = some [] then segs.dropLast else segs

/-- One `csv.reader` record: a blank line yields the empty record, any
other line is split on commas.  The validator's inputs never use quoting,
so the quoted-field part of the csv dialect is not modelled. -/
def csvRecordOfLine (l : List Char) : List String :=
  if l = [] then [] else (splitOnChar ',' l).map (fun s => String.mk s)

/-- All raw records of the decoded text, in file order. -/
def csvRecords (cs : List Char) : List (List String) :=
  (linesOf cs).map csvRecordOfLine

/-- One row dict of `csv.DictReader`: `dict(zip(fieldnames, row))`, then
either the extra cells of a long row are collected under the `None`
rest-key or the missing fields of a short row are padded with the
`None` rest-value. -/
def dictRow (fieldnames : List String) (cells : List String) : Row :=
  let d0 := (List.zip fieldnames cells).foldl
    (fun d kv => pyDictInsert d (some kv.1) (.vStr kv.2)) []
  if fieldnames.length < cells.length then
    pyDictInsert d0 none (.vList (cells.drop fieldnames.length))
  else if cells.length < fieldnames.length then
    (fieldnames.drop cells.length).foldl (fun d k => pyDictInsert d (some k) .vNone) d0
  else d0

/-- Python `csv_reader.fieldnames or []`: the first record of the file (the
header), or `[]` for an empty file. -/
def dictReaderFieldnames (records : List (List String)) : List String :=
  records.headD []

/-- The data rows yielded by `csv.DictReader`: every record after the
header, with blank records skipped, turned into row dicts. -/
def dictReaderRows (records : List (List String)) : List Row :=
  ((records.drop 1).filter (fun r => r ≠ [])).map (dictRow (dictReaderFieldnames records))

/-- Whether `sub` occurs as a contiguous sublist of `hay`. -/
def listHasSub (hay sub : List Char) : Bool :=
  hay.tails.any (fun t => sub.isPrefixOf t)

/-- Python `sub in hay` on strings. -/
def strContainsSub (hay sub : String) : Bool :=
  listHasSub hay.data sub.data

/-- A nonempty all-digit character list. -/
def floatDigitsOk (cs : List Char) : Bool :=
  cs ≠ [] && cs.all Char.isDigit

/-- The mantissa of a float literal: digits with an optional decimal
point, at least one digit overall. -/
def floatMantissaOk (cs : List Char) : Bool :=
  match splitOnChar '.' cs with
  | [a] => floatDigitsOk a
  | [a, b] => (a ≠ [] || b ≠ []) && a.all Char.isDigit && b.all Char.isDigit
  | _ => false

/-- Mantissa with an optional exponent part. -/
def floatBodyOk (cs : List Char) : Bool :=
  match splitOnChar 'e' cs with
  | [m] => floatMantissaOk m
  | [m, ex] =>
    let ex2 := match ex with
      | '+' :: r => r
      | '-' :: r => r
      | r => r
    floatMantissaOk m && floatDigitsOk ex2
  | _ => false

/-- Whether Python `float(s)` succeeds: surrounding whitespace and a sign
are allowed around a decimal literal, `inf`, `infinity` or `nan`
(case-insensitive).  Digit-group underscores are not modelled. -/
def pyFloatOk (s : String) : Bool :=
  let cs := (stripChars s.data).map Char.toLower
  let cs2 := match cs with
    | '+' :: r => r
    | '-' :: r => r
    | r => r
  cs2 = "inf".data || cs2 = "infinity".data || cs2 = "nan".data || floatBodyOk cs2

namespace CSVValidator

/-- Python `any(not str(row.get(field, "")).strip() for field in fieldnames)`. -/
def rowHasEmpty (fieldnames : List String) (row : Row) : Bool :=
  fieldnames.any (fun field =>
    pyStrip (pyStr (pyDictGet row (some field) (.vStr ""))) = "")

/-- Source `CSVValidator._check_empty_values`: the 1-indexed numbers (header is
row 1, first data row is row 2) of the rows with some empty field. -/
def check_empty_values (rows : List Row) (fieldnames : List String) : List Nat :=
  ((List.enumFrom 2 rows).filter (fun p => rowHasEmpty fieldnames p.2)).map (fun p => p.1)

/-- Python `"id" in field.lower() or "numero" in field.lower()`. -/
def fieldIsNumericName (field : String) : Bool :=
  strContainsSub (pyLower field) "id" || strContainsSub (pyLower field) "numero"

/-- The per-row condition of `_check_incorrect_types`: some numeric-named
field has a truthy value that `float` rejects.  The source breaks at the
first such field, which flags the same rows. -/
def rowHasBadType (fieldnames : List String) (row : Row) : Bool :=
  fieldnames.any (fun field =>
    let value := pyDictGet row (some field) (.vStr "")
    fieldIsNumericName field && pyTruthy value && !pyFloatOk (pyStr value))

/-- Source `CSVValidator._check_incorrect_types`. -/
def check_incorrect_types (rows : List Row) (fieldnames : List String) : List Nat :=
  ((List.enumFrom 2 rows).filter (fun p => rowHasBadType fieldnames p.2)).map (fun p => p.1)

/-- Code-point lexicographic comparison of character lists — Python's
string `<=`, which `sorted` applies to the row keys (structurally
recursive, so the kernel can evaluate it). -/
def charListLe : List Char → List Char → Bool
  | [], _ => true
  | _ :: _, [] => false
  | a :: as, b :: bs =>
    if a < b then true
    else if b < a then false
    else charListLe as bs

/-- The key order used by Python `sorted(row.items())`: item tuples are
compared on their keys first, and on rows produced by `csv.DictReader`
the keys inside one row are distinct, so the key order alone determines
the sorted result. -/
def keyLe : Option String × PyVal → Option String × PyVal → Prop :=
  fun a b =>
    match a.1, b.1 with
    | none, _ => True
    | some _, none => False
    | some x, some y => charListLe x.data y.data = true

instance : DecidableRel keyLe := fun a b =>
  match a, b with
  | (none, _), _ => isTrue trivial
  | (some _, _), (none, _) => isFalse (fun h => h)
  | (some x, _), (some y, _) =>
    inferInstanceAs (Decidable (charListLe x.data y.data = true))

instance : IsTotal (Option String × PyVal) keyLe := by
  constructor
  have htot : ∀ xs ys : List Char, charListLe xs ys = true ∨ charListLe ys xs = true := by
    intro xs
    induction xs with
    | nil => intro ys; exact Or.inl rfl
    | cons a as ih =>
      intro ys
      cases ys with
      | nil => exact Or.inr rfl
      | cons b bs =>
        rcases lt_trichotomy a b with h | h | h
        · left; simp [charListLe, h]
        · subst h
          rcases ih bs with h' | h'
          · left; simp [charListLe, lt_irrefl, h']
          · right; simp [charListLe, lt_irrefl, h']
        · right; simp [charListLe, h]
  intro a b
  match a, b with
  | (none, _), _ => exact Or.inl trivial
  | (some _, _), (none, _) => exact Or.inr trivial
  | (some x, _), (some y, _) => exact htot x.data y.data

instance : IsTrans (Option String × PyVal) keyLe := by
  constructor
  have htr : ∀ xs ys zs : List Char, charListLe xs ys = true →
      charListLe ys zs = true → charListLe xs zs = true := by
    intro xs
    induction xs with
    | nil => intro ys zs _ _; rfl
    | cons a as ih =>
      intro ys zs h1 h2
      cases ys with
      | nil => simp [charListLe] at h1
      | cons b bs =>
        cases zs with
        | nil => simp [charListLe] at h2
        | cons c cs =>
          rcases lt_trichotomy a b with hab | hab | hab
          · rcases lt_trichotomy b c with hbc | hbc | hbc
            · simp [charListLe, lt_trans hab hbc]
            · subst hbc; simp [charListLe, hab]
            · simp [charListLe, hbc, lt_asymm hbc] at h2
          · subst hab
            rcases lt_trichotomy a c with hac | hac | hac
            · simp [charListLe, hac]
            · subst hac
              simp only [charListLe, lt_irrefl, if_false] at h1 h2 ⊢
              exact ih bs cs h1 h2
            · simp [charListLe, hac, lt_asymm hac] at h2
          · simp [charListLe, hab, lt_asymm hab] at h1
  intro a b c hab hbc
  match a, b, c with
  | (none, _), _, _ => exact trivial
  | (some _, _), (none, _), _ => exact hab.elim
  | (some _, _), (some _, _), (none, _) => exact hbc.elim
  | (some x, _), (some y, _), (some z, _) => exact htr x.data y.data z.data hab hbc

/-- Python `tuple(sorted(row.items()))`: the canonical form whose hash is stored
in the `seen` set.  Hash collisions are not modelled: two rows are
treated as colliding exactly when their canonical forms are equal. -/
def canonRow (row : Row) : Row :=
  List.insertionSort keyLe row

/-- Whether hashing `tuple(sorted(row.items()))` raises a `TypeError`:
exactly when the row carries the `None` rest-key of a long source row,
since the `None` key is unorderable against the string keys and its
list value is unhashable. -/
def rowUnhashable (row : Row) : Bool :=
  row.any (fun kv => kv.1 = none)

/-- Stand-in for the text of the `TypeError` raised while sorting or
hashing a row that carries the `None` rest-key. -/
def typeErrorMsg : String :=
  "TypeError while hashing the sorted row items"

/-- The loop of `_check_duplicates`: `seen` holds the canonical forms of
the first occurrences; a row whose canonical form was already seen is
flagged.  A row with the `None` rest-key raises, which aborts the check
and discards the duplicates found so far. -/
def check_duplicates_go (idx : Nat) (seen : List Row) :
    List Row → Except String (List Nat)
  | [] => .ok []
  | row :: rest =>
    if rowUnhashable row then .error typeErrorMsg
    else
      let c := canonRow row
      if c ∈ seen then
        match check_duplicates_go (idx + 1) seen rest with
        | .error e => .error e
        | .ok l => .ok (idx :: l)
      else check_duplicates_go (idx + 1) (c :: seen) rest

/-- Source `CSVValidator._check_duplicates`. -/
def check_duplicates (rows : List Row) : Except String (List Nat) :=
  check_duplicates_go 2 [] rows

/-- Source `CSVValidator._check_invalid_format`: rows whose dict size differs
from the header width. -/
def check_invalid_format (rows : List Row) (fieldnames : List String) : List Nat :=
  ((List.enumFrom 2 rows).filter (fun p => p.2.length ≠ fieldnames.length)).map
    (fun p => p.1)

end CSVValidator

/-- One element of the validation report (the dicts appended by
`validate_csv`). -/
structure Finding where
  validation_type : String
  message : String
  affected_rows : List Nat
  severity : String
deriving DecidableEq

/-- The finding built in the `except` branch of `validate_csv`. -/
def mkParseError (e : String) : Finding :=
  ⟨"parse_error", "Error al procesar el archivo CSV: " ++ e, [], "error"⟩

/-- The finding for a file with no data rows. -/
def emptyFileFinding : Finding :=
  ⟨"empty_file", "El archivo CSV está vacío", [], "error"⟩

/-- The finding appended when no check produced one. -/
def successFinding : Finding :=
  ⟨"success", "El archivo CSV pasó todas las validaciones", [], "info"⟩

/-- The `empty_values` finding (severity `warning`). -/
def emptyValuesFinding (rs : List Nat) : Finding :=
  ⟨"empty_values",
   "Se encontraron " ++ toString rs.length ++ " filas con valores vacíos",
   rs, "warning"⟩

/-- The `incorrect_types` finding (severity `error`). -/
def incorrectTypesFinding (rs : List Nat) : Finding :=
  ⟨"incorrect_types",
   "Se encontraron " ++ toString rs.length ++ " filas con tipos de datos incorrectos",
   rs, "error"⟩

/-- The `duplicates` finding (severity `warning`). -/
def duplicatesFinding (rs : List Nat) : Finding :=
  ⟨"duplicates",
   "Se encontraron " ++ toString rs.length ++ " filas duplicadas",
   rs, "warning"⟩

/-- The `invalid_format` finding (severity `error`). -/
def invalidFormatFinding (rs : List Nat) : Finding :=
  ⟨"invalid_format",
   "Se encontraron " ++ toString rs.length ++ " filas con formato incorrecto",
   rs, "error"⟩

namespace CSVValidator

/-- The four checks of `validate_csv` in source order, appending one
finding per check that flagged at least one row.  A `TypeError` escaping
`_check_duplicates` jumps to the `except` branch, appending `parse_error`
after the findings already collected; `_check_invalid_format` and the
`success` finding are then never reached. -/
def run_checks (rows : List Row) (fieldnames : List String) : List Finding :=
  let v1 := check_empty_values rows fieldnames
  let vs1 : List Finding := if v1 ≠ [] then [emptyValuesFinding v1] else []
  let v2 := check_incorrect_types rows fieldnames
  let vs2 := vs1 ++ (if v2 ≠ [] then [incorrectTypesFinding v2] else [])
  match check_duplicates rows with
  | .error e => vs2 ++ [mkParseError e]
  | .ok v3 =>
    let vs3 := vs2 ++ (if v3 ≠ [] then [duplicatesFinding v3] else [])
    let v4 := check_invalid_format rows fieldnames
    let vs4 := vs3 ++ (if v4 ≠ [] then [invalidFormatFinding v4] else [])
    if vs4 = [] then [successFinding] else vs4

/-- The body of `validate_csv` after a successful decode: the empty-file
guard, then the four checks. -/
def validate_text (text : List Char) : List Finding :=
  let records := csvRecords text
  let rows := dictReaderRows records
  if rows = [] then [emptyFileFinding]
  else run_checks rows (dictReaderFieldnames records)

/-- Source `CSVValidator.validate_csv`.  The `try`/`except` of the source is
explicit: a decode failure yields the single `parse_error` finding.
The `categoria`/`descripcion` arguments are carried but unused, as in
the source. -/
def validate_csv (file_content : List Nat)
    (categoria descripcion : Option String) : List Finding :=
  match utf8Decode file_content with
  | .error e => [mkParseError e]
  | .ok text => validate_text text

end CSVValidator

/-- The `FileUpload` model row created by `FileRepository.create_file_upload`
(timestamps are outside the model). -/
structure FileUpload where
  id : Nat
  original_filename : String
  s3_key : String
  s3_url : String
  user_id : Nat
  status : String
  validations : Option String
  records_count : Nat
  categoria : Option String
  descripcion : Option String
deriving DecidableEq

/-- The `CSVRecord` model row created by `FileRepository.create_csv_record`. -/
structure CSVRecord where
  file_upload_id : Nat
  record_data : String
  row_number : Nat
  is_valid : String
  validation_errors : Option String
deriving DecidableEq

/-- One repository call made by the pipeline, in call order. -/
inductive RepoEvent where
  | createUpload (fu : FileUpload)
  | createRow (r : CSVRecord)
  | updateStatus (id : Nat) (status : String) (validations : Option String)
      (records_count : Option Nat)
deriving DecidableEq

/-- The exceptions `upload_and_process_csv` raises
(`app/exceptions/custom_exceptions.py`). -/
inductive PipeError where
  | externalService (message : String) (service : String)
  | databaseError (message : String)
deriving DecidableEq

/-- The `message` attribute of the raised exception:
`ExternalServiceError` prepends `"Error en {service}: "`. -/
def PipeError.fullMessage : PipeError → String
  | .externalService m s => "Error en " ++ s ++ ": " ++ m
  | .databaseError m => m

/-- Abstract stand-in for `json.dumps` on a findings list (the claims
never inspect the serialized text, only whether and when it is attached). -/
def serializeFindings (vs : List Finding) : String :=
  joinSep ";" (vs.map (fun v =>
    v.validation_type ++ "|" ++ v.message ++ "|" ++
    joinSep "," (v.affected_rows.map toString) ++ "|" ++ v.severity))

/-- Abstract stand-in for `json.dumps` on a row dict. -/
def serializeRow (row : Row) : String :=
  joinSep ";" (row.map (fun kv =>
    (kv.1.getD "None") ++ "|" ++ pyStr kv.2))

/-- Abstract stand-in for `json.dumps` on a list of error messages. -/
def serializeMessages (ms : List String) : String :=
  joinSep ";" ms

/-- The payload dict returned by `upload_and_process_csv` on success
(`uploaded_at` is outside the model). -/
structure UploadOutput where
  file_id : Nat
  filename : String
  s3_url : String
  status : String
  validations : List Finding
  records_count : Nat
  categoria : Option String
  descripcion : Option String
deriving DecidableEq

namespace FileService

/-- The body of the per-row loop that decides `is_valid` and collects
`row_errors`: a fold over the findings in report order. -/
def rowCheck (validations : List Finding) (row_number : Nat) : String × List String :=
  validations.foldl
    (fun acc v =>
      if row_number ∈ v.affected_rows then
        if v.severity = "error" then ("false", acc.2 ++ [v.message]) else acc
      else acc)
    ("true", [])

/-- The `CSVRecord` persisted for one data row. -/
def processRow (validations : List Finding) (file_upload_id : Nat)
    (row_number : Nat) (row : Row) : CSVRecord :=
  let res := rowCheck validations row_number
  { file_upload_id := file_upload_id
    record_data := serializeRow row
    row_number := row_number
    is_valid := res.1
    validation_errors := if res.2 = [] then none else some (serializeMessages res.2) }

/-- Source `FileService.upload_and_process_csv`.  The storage collaborator is a
parameter holding the outcome of `s3_service.upload_file`; repository
calls are recorded as an event trace (the repository itself never fails
in the model).  `newUploadId` is the identifier the store assigns to the
created `FileUpload`.  The result pairs the trace with either the raised
exception or the returned payload dict. -/
def upload_and_process_csv
    (s3_result : Except String (String × String)) (newUploadId : Nat)
    (file_content : List Nat) (filename : String) (user_id : Nat)
    (categoria descripcion : Option String) :
    List RepoEvent × Except PipeError UploadOutput :=
  match s3_result with
  | .error e => ([], .error (.externalService e "AWS S3"))
  | .ok (s3_key, s3_url) =>
    let validations := CSVValidator.validate_csv file_content categoria descripcion
    match utf8Decode file_content with
    | .error e =>
      -- the decode inside the `try` re-raises before `file_upload` exists
      ([], .error (.externalService ("Error al procesar archivo: " ++ e) "procesamiento"))
    | .ok text =>
      let validations_json := serializeFindings validations
      let fu : FileUpload :=
        { id := newUploadId, original_filename := filename, s3_key := s3_key
          s3_url := s3_url, user_id := user_id, status := "processing"
          validations := some validations_json, records_count := 0
          categoria := categoria, descripcion := descripcion }
      let dataRows := dictReaderRows (csvRecords text)
      let rowRecords := (List.enumFrom 2 dataRows).map
        (fun p => processRow validations newUploadId p.1 p.2)
      let records_count := dataRows.length
      let final_status :=
        if validations.all (fun v => v.severity ≠ "error") then "completed"
        else "completed_with_errors"
      (RepoEvent.createUpload fu :: rowRecords.map RepoEvent.createRow ++
        [RepoEvent.updateStatus newUploadId final_status (some validations_json)
          (some records_count)],
       .ok { file_id := newUploadId, filename := filename, s3_url := s3_url
             status := final_status, validations := validations
             records_count := records_count, categoria := categoria
             descripcion := descripcion })

end FileService

/-! ### Characterization of the enumerate-and-filter loops -/

/-- Membership in the row-number list produced by a
`for idx, row in enumerate(rows, start=k): if cond(row): out.append(idx)`
loop. -/
theorem mem_enumFilterMap {α : Type} (f : α → Bool) :
    ∀ (l : List α) (k n : Nat),
      (n ∈ ((List.enumFrom k l).filter (fun p => f p.2)).map Prod.fst ↔
        ∃ i, ∃ h : i < l.length, n = k + i ∧ f (l.get ⟨i, h⟩) = true) := by
  intro l
  induction l with
  | nil => intro k n; simp
  | cons a l ih =>
    intro k n
    simp only [List.enumFrom_cons, List.filter_cons]
    by_cases ha : f a = true
    · rw [if_pos ha]
      simp only [List.map_cons, List.mem_cons, ih (k + 1) n]
      constructor
      · rintro (rfl | ⟨i, h, rfl, hi⟩)
        · exact ⟨0, Nat.succ_pos _, by omega, ha⟩
        · exact ⟨i + 1, Nat.succ_lt_succ h, by omega, hi⟩
      · rintro ⟨i, h, rfl, hi⟩
        cases i with
        | zero => exact Or.inl (by omega)
        | succ j =>
          exact Or.inr ⟨j, Nat.lt_of_succ_lt_succ h, by omega, hi⟩
    · rw [if_neg ha]
      rw [ih (k + 1) n]
      constructor
      · rintro ⟨i, h, rfl, hi⟩
        exact ⟨i + 1, Nat.succ_lt_succ h, by omega, hi⟩
      · rintro ⟨i, h, rfl, hi⟩
        cases i with
        | zero => exact absurd hi ha
        | succ j =>
          exact ⟨j, Nat.lt_of_succ_lt_succ h, by omega, hi⟩

/-- The check `_check_empty_values` flags exactly the row numbers whose row makes
`rowHasEmpty` true. -/
theorem mem_check_empty_values (rows : List Row) (fieldnames : List String) (n : Nat) :
    n ∈ CSVValidator.check_empty_values rows fieldnames ↔
      ∃ i, ∃ h : i < rows.length,
        n = 2 + i ∧ CSVValidator.rowHasEmpty fieldnames (rows.get ⟨i, h⟩) = true :=
  mem_enumFilterMap _ rows 2 n

/-- The check `_check_incorrect_types` flags exactly the row numbers whose row makes
`rowHasBadType` true. -/
theorem mem_check_incorrect_types (rows : List Row) (fieldnames : List String) (n : Nat) :
    n ∈ CSVValidator.check_incorrect_types rows fieldnames ↔
      ∃ i, ∃ h : i < rows.length,
        n = 2 + i ∧ CSVValidator.rowHasBadType fieldnames (rows.get ⟨i, h⟩) = true :=
  mem_enumFilterMap _ rows 2 n

/-- The check `_check_invalid_format` flags exactly the row numbers whose dict size
differs from the header width. -/
theorem mem_check_invalid_format (rows : List Row) (fieldnames : List String) (n : Nat) :
    n ∈ CSVValidator.check_invalid_format rows fieldnames ↔
      ∃ i, ∃ h : i < rows.length,
        n = 2 + i ∧ (rows.get ⟨i, h⟩).length ≠ fieldnames.length := by
  have h := mem_enumFilterMap
    (fun (row : Row) => decide (row.length ≠ fieldnames.length)) rows 2 n
  simp only [decide_eq_true_eq] at h
  exact h

/-! ### Characterization of the per-row validity fold -/

/-- The Boolean form of "an error-severity finding references row `n`". -/
def errorHits (n : Nat) (v : Finding) : Bool :=
  decide (n ∈ v.affected_rows) && decide (v.severity = "error")

/-- The fold of the per-row loop, on an arbitrary accumulator. -/
theorem rowCheck_fold (n : Nat) :
    ∀ (vs : List Finding) (b : String) (acc : List String),
      vs.foldl
        (fun acc v =>
          if n ∈ v.affected_rows then
            if v.severity = "error" then ("false", acc.2 ++ [v.message]) else acc
          else acc)
        (b, acc) =
      (if vs.any (errorHits n) then "false" else b,
       acc ++ (vs.filter (errorHits n)).map Finding.message) := by
  intro vs
  induction vs with
  | nil => intro b acc; simp
  | cons v vs ih =>
    intro b acc
    simp only [List.foldl_cons, List.any_cons, List.filter_cons]
    by_cases hmem : n ∈ v.affected_rows
    · by_cases hsev : v.severity = "error"
      · have hhit : errorHits n v = true := by
          simp [errorHits, hmem, hsev]
        rw [if_pos hmem, if_pos hsev, ih]
        simp [hhit, List.append_assoc]
      · have hhit : errorHits n v = false := by
          simp [errorHits, hsev]
        rw [if_pos hmem, if_neg hsev, ih]
        simp [hhit]
    · have hhit : errorHits n v = false := by
        simp [errorHits, hmem]
      rw [if_neg hmem, ih]
      simp [hhit]

/-- The validity flag computed for row `n`. -/
theorem rowCheck_fst (vs : List Finding) (n : Nat) :
    (FileService.rowCheck vs n).1 =
      if vs.any (errorHits n) then "false" else "true" := by
  rw [FileService.rowCheck, rowCheck_fold]

/-- The error messages collected for row `n`. -/
theorem rowCheck_snd (vs : List Finding) (n : Nat) :
    (FileService.rowCheck vs n).2 =
      (vs.filter (errorHits n)).map Finding.message := by
  rw [FileService.rowCheck, rowCheck_fold]
  simp

/-! ### Structure of the rows built by `csv.DictReader` -/

/-- Inserting a key absent from the dict appends. -/
theorem pyDictInsert_fresh (d : Row) (k : Option String) (v : PyVal)
    (h : ∀ kv ∈ d, kv.1 ≠ k) : pyDictInsert d k v = d ++ [(k, v)] := by
  rw [pyDictInsert, if_neg]
  intro hcontra
  rcases List.any_eq_true.1 hcontra with ⟨kv, hkv, hk⟩
  exact h kv hkv (by simpa using hk)

/-- Folding fresh, pairwise-distinct insertions over a dict appends them
all in order. -/
theorem foldl_pyDictInsert_fresh {β : Type} (key : β → Option String) (val : β → PyVal) :
    ∀ (ps : List β) (d : Row),
      (∀ p ∈ ps, ∀ kv ∈ d, kv.1 ≠ key p) → (ps.map key).Nodup →
      ps.foldl (fun d p => pyDictInsert d (key p) (val p)) d =
        d ++ ps.map (fun p => (key p, val p)) := by
  intro ps
  induction ps with
  | nil => intro d _ _; simp
  | cons p ps ih =>
    intro d hfresh hnodup
    simp only [List.foldl_cons]
    rw [pyDictInsert_fresh d (key p) (val p)
      (fun kv hkv => hfresh p (List.mem_cons_self p ps) kv hkv)]
    rw [ih (d ++ [(key p, val p)])]
    · simp
    · intro q hq kv hkv
      rcases List.mem_append.1 hkv with hkv | hkv
      · exact hfresh q (List.mem_cons_of_mem p hq) kv hkv
      · have hkvp : kv = (key p, val p) := by simpa using hkv
        subst hkvp
        simp only [List.map_cons, List.nodup_cons] at hnodup
        intro hcontra
        have hpq : key p = key q := hcontra
        exact hnodup.1 (hpq ▸ List.mem_map_of_mem key hq)
    · simpa [List.nodup_cons] using hnodup.of_cons

/-- The first components of a zip are the prefix of the first list cut at
the second list's length. -/
theorem map_fst_zip_eq_take {α β : Type} :
    ∀ (f : List α) (c : List β), (List.zip f c).map Prod.fst = f.take c.length := by
  intro f
  induction f with
  | nil => intro c; simp
  | cons a f ih =>
    intro c
    cases c with
    | nil => simp
    | cons b c => simp [List.zip_cons_cons, ih c]

/-- Explicit form of a `csv.DictReader` row dict for a duplicate-free
header: the zipped cells, then either the rest-key entry (long row) or
the `None` padding (short row). -/
theorem dictRow_eq (f c : List String) (hf : f.Nodup) :
    dictRow f c =
      if f.length < c.length then
        (List.zip f c).map (fun kv => (some kv.1, PyVal.vStr kv.2)) ++
          [(none, PyVal.vList (c.drop f.length))]
      else
        (List.zip f c).map (fun kv => (some kv.1, PyVal.vStr kv.2)) ++
          (f.drop c.length).map (fun k => (some k, PyVal.vNone)) := by
  have hzipnodup : ((List.zip f c).map (fun kv : String × String => some kv.1)).Nodup := by
    have heq : (List.zip f c).map (fun kv : String × String => some kv.1) =
        ((List.zip f c).map Prod.fst).map some := by
      simp [List.map_map, Function.comp]
    rw [heq, map_fst_zip_eq_take]
    exact (hf.sublist (List.take_sublist _ _)).map (Option.some_injective String)
  have hd0 : (List.zip f c).foldl
      (fun d kv => pyDictInsert d (some kv.1) (.vStr kv.2)) [] =
      (List.zip f c).map (fun kv => (some kv.1, PyVal.vStr kv.2)) := by
    have h := foldl_pyDictInsert_fresh (fun kv : String × String => some kv.1)
      (fun kv => PyVal.vStr kv.2) (List.zip f c) [] (by simp) hzipnodup
    simpa using h
  rw [dictRow, hd0]
  by_cases hlf : f.length < c.length
  · rw [if_pos hlf, if_pos hlf]
    rw [pyDictInsert_fresh]
    intro kv hkv
    simp only [List.mem_map] at hkv
    rcases hkv with ⟨q, hq, rfl⟩
    simp
  · rw [if_neg hlf, if_neg hlf]
    by_cases hlc : c.length < f.length
    · rw [if_pos hlc]
      have hsplit : (f.take c.length ++ f.drop c.length).Nodup := by
        rw [List.take_append_drop]; exact hf
      have hdisj := (List.nodup_append.1 hsplit).2.2
      have h := foldl_pyDictInsert_fresh (fun k : String => some k)
        (fun _ => PyVal.vNone) (f.drop c.length)
        ((List.zip f c).map (fun kv => (some kv.1, PyVal.vStr kv.2))) ?fresh ?nodup
      case fresh =>
        intro p hp kv hkv
        simp only [List.mem_map] at hkv
        rcases hkv with ⟨q, hq, rfl⟩
        have hqf : q.1 ∈ f.take c.length := by
          have hmem := List.mem_map_of_mem Prod.fst hq
          rwa [map_fst_zip_eq_take] at hmem
        simp only [ne_eq, Option.some.injEq]
        intro hqp
        subst hqp
        exact hdisj hqf hp
      case nodup =>
        exact (hf.sublist (List.drop_sublist _ _)).map (Option.some_injective String)
      simpa using h
    · rw [if_neg hlc]
      have hcf : c.length = f.length := le_antisymm (not_lt.1 hlf) (not_lt.1 hlc)
      simp [hcf, List.drop_length]

/-- Size of a `csv.DictReader` row dict for a duplicate-free header:
long rows gain the rest-key entry, short rows are padded back to the
header width. -/
theorem dictRow_length (f c : List String) (hf : f.Nodup) :
    (dictRow f c).length =
      if f.length < c.length then f.length + 1 else f.length := by
  rw [dictRow_eq f c hf]
  by_cases h : f.length < c.length
  · simp only [if_pos h]
    simp [List.length_zip]
    omega
  · simp only [if_neg h]
    simp [List.length_zip]
    omega

/-! ### The canonical row form used by the duplicates check -/

/-- The canonical form `canonRow` is a permutation of the row. -/
theorem canonRow_perm (r : Row) : List.Perm (CSVValidator.canonRow r) r :=
  List.perm_insertionSort CSVValidator.keyLe r

/-- The canonical form `canonRow` is sorted by `keyLe`. -/
theorem canonRow_sorted (r : Row) :
    List.Sorted CSVValidator.keyLe (CSVValidator.canonRow r) :=
  List.sorted_insertionSort CSVValidator.keyLe r

/-- Two items each below the other in the key order have equal keys. -/
theorem keyLe_antisymm_keys {a b : Option String × PyVal}
    (h₁ : CSVValidator.keyLe a b) (h₂ : CSVValidator.keyLe b a) : a.1 = b.1 := by
  rcases a with ⟨ak, av⟩
  rcases b with ⟨bk, bv⟩
  match ak, bk with
  | none, none => rfl
  | none, some y => exact h₂.elim
  | some x, none => exact h₁.elim
  | some x, some y =>
    have hanti : ∀ xs ys : List Char, CSVValidator.charListLe xs ys = true →
        CSVValidator.charListLe ys xs = true → xs = ys := by
      intro xs
      induction xs with
      | nil =>
        intro ys h1 h2
        cases ys with
        | nil => rfl
        | cons b bs => simp [CSVValidator.charListLe] at h2
      | cons a as ih =>
        intro ys h1 h2
        cases ys with
        | nil => simp [CSVValidator.charListLe] at h1
        | cons b bs =>
          rcases lt_trichotomy a b with hab | hab | hab
          · simp [CSVValidator.charListLe, hab, lt_asymm hab] at h2
          · subst hab
            simp only [CSVValidator.charListLe, lt_irrefl, if_false] at h1 h2
            rw [ih bs h1 h2]
          · simp [CSVValidator.charListLe, hab, lt_asymm hab] at h1
    have hdata : x.data = y.data := hanti x.data y.data h₁ h₂
    have hxy : x = y := by
      cases x; cases y
      exact congrArg String.mk (by simpa using hdata)
    exact congrArg some hxy

/-- Two key-sorted permutations of each other with duplicate-free keys
are equal: a dict's items have a unique ascending arrangement. -/
theorem sorted_nodupKeys_perm_eq :
    ∀ (l₁ l₂ : Row), List.Perm l₁ l₂ → List.Sorted CSVValidator.keyLe l₁ →
      List.Sorted CSVValidator.keyLe l₂ → (l₁.map Prod.fst).Nodup → l₁ = l₂ := by
  intro l₁
  induction l₁ with
  | nil =>
    intro l₂ hp _ _ _
    exact (List.perm_nil.1 hp.symm).symm
  | cons a t ih =>
    intro l₂ hp hs₁ hs₂ hnd
    cases l₂ with
    | nil => exact absurd (List.perm_nil.1 hp) (by simp)
    | cons b t₂ =>
      have hs₁' := List.sorted_cons.1 hs₁
      have hs₂' := List.sorted_cons.1 hs₂
      have hab : a = b := by
        have hamem : a ∈ b :: t₂ := hp.mem_iff.1 (List.mem_cons_self a t)
        have hbmem : b ∈ a :: t := hp.mem_iff.2 (List.mem_cons_self b t₂)
        rcases List.mem_cons.1 hamem with h | hat₂
        · exact h
        rcases List.mem_cons.1 hbmem with h | hbt
        · exact h.symm
        have hba : CSVValidator.keyLe b a := hs₂'.1 a hat₂
        have hab' : CSVValidator.keyLe a b := hs₁'.1 b hbt
        have hkeys : a.1 = b.1 := keyLe_antisymm_keys hab' hba
        exfalso
        have hmem : a.1 ∈ t.map Prod.fst := hkeys ▸ List.mem_map_of_mem Prod.fst hbt
        exact (List.nodup_cons.1 hnd).1 hmem
      subst hab
      have ht : List.Perm t t₂ := hp.cons_inv
      have := ih t₂ ht hs₁'.2 hs₂'.2 (List.nodup_cons.1 hnd).2
      rw [this]

/-- For rows with duplicate-free keys (every dict), equality of the
canonical sorted forms is exactly content equality up to column order. -/
theorem canonRow_eq_iff (r s : Row) (hr : (r.map Prod.fst).Nodup) :
    CSVValidator.canonRow r = CSVValidator.canonRow s ↔ List.Perm r s := by
  constructor
  · intro h
    have h1 : List.Perm r (CSVValidator.canonRow r) := (canonRow_perm r).symm
    have h2 : List.Perm (CSVValidator.canonRow s) s := canonRow_perm s
    exact h1.trans (by rw [h]; exact h2)
  · intro h
    have hperm : List.Perm (CSVValidator.canonRow r) (CSVValidator.canonRow s) :=
      ((canonRow_perm r).trans h).trans (canonRow_perm s).symm
    have hnod : ((CSVValidator.canonRow r).map Prod.fst).Nodup := by
      have hm := (canonRow_perm r).map Prod.fst
      exact hm.nodup_iff.2 hr
    exact sorted_nodupKeys_perm_eq _ _ hperm (canonRow_sorted r) (canonRow_sorted s) hnod

/-! ### Characterization of the duplicates loop -/

/-- Full specification of `check_duplicates_go` on hashable rows: it
succeeds, and flags row `idx + i` exactly when the canonical form of row
`i` was already in `seen` or equals the canonical form of an earlier row. -/
theorem check_duplicates_go_spec :
    ∀ (rows : List Row) (idx : Nat) (seen : List Row),
      (∀ r ∈ rows, CSVValidator.rowUnhashable r = false) →
      ∃ l, CSVValidator.check_duplicates_go idx seen rows = .ok l ∧
        ∀ n, n ∈ l ↔ ∃ i, ∃ h : i < rows.length, n = idx + i ∧
          (CSVValidator.canonRow (rows.get ⟨i, h⟩) ∈ seen ∨
           ∃ j, ∃ hj : j < rows.length, j < i ∧
             CSVValidator.canonRow (rows.get ⟨j, hj⟩) =
               CSVValidator.canonRow (rows.get ⟨i, h⟩)) := by
  intro rows
  induction rows with
  | nil =>
    intro idx seen _
    exact ⟨[], rfl, by simp⟩
  | cons row rest ih =>
    intro idx seen hwf
    have h0 : CSVValidator.rowUnhashable row = false := hwf row (List.mem_cons_self _ _)
    have hwf' : ∀ r ∈ rest, CSVValidator.rowUnhashable r = false :=
      fun r hr => hwf r (List.mem_cons_of_mem _ hr)
    by_cases hc : CSVValidator.canonRow row ∈ seen
    · obtain ⟨l, hl, hmem⟩ := ih (idx + 1) seen hwf'
      refine ⟨idx :: l, ?_, ?_⟩
      · simp [CSVValidator.check_duplicates_go, h0, hc, hl]
      · intro n
        simp only [List.mem_cons, hmem n]
        constructor
        · rintro (rfl | ⟨i, h, rfl, hcond⟩)
          · exact ⟨0, Nat.succ_pos _, by omega, Or.inl hc⟩
          · refine ⟨i + 1, Nat.succ_lt_succ h, by omega, ?_⟩
            rcases hcond with hseen | ⟨j, hj, hji, hcanon⟩
            · exact Or.inl hseen
            · exact Or.inr ⟨j + 1, Nat.succ_lt_succ hj, by omega, hcanon⟩
        · rintro ⟨i, h, rfl, hcond⟩
          cases i with
          | zero => exact Or.inl (by omega)
          | succ i' =>
            refine Or.inr ⟨i', Nat.lt_of_succ_lt_succ h, by omega, ?_⟩
            rcases hcond with hseen | ⟨j, hj, hji, hcanon⟩
            · exact Or.inl hseen
            · cases j with
              | zero =>
                refine Or.inl ?_
                show CSVValidator.canonRow
                  (rest.get ⟨i', Nat.lt_of_succ_lt_succ h⟩) ∈ seen
                have hcanon' : CSVValidator.canonRow row =
                    CSVValidator.canonRow
                      (rest.get ⟨i', Nat.lt_of_succ_lt_succ h⟩) := hcanon
                rw [← hcanon']
                exact hc
              | succ j' =>
                exact Or.inr ⟨j', Nat.lt_of_succ_lt_succ hj, by omega, hcanon⟩
    · obtain ⟨l, hl, hmem⟩ := ih (idx + 1) (CSVValidator.canonRow row :: seen) hwf'
      refine ⟨l, ?_, ?_⟩
      · simp [CSVValidator.check_duplicates_go, h0, hc, hl]
      · intro n
        rw [hmem n]
        constructor
        · rintro ⟨i, h, rfl, hcond⟩
          refine ⟨i + 1, Nat.succ_lt_succ h, by omega, ?_⟩
          rcases hcond with hseen | ⟨j, hj, hji, hcanon⟩
          · rcases List.mem_cons.1 hseen with heq | hseen'
            · exact Or.inr ⟨0, Nat.succ_pos _, Nat.succ_pos _, heq.symm⟩
            · exact Or.inl hseen'
          · exact Or.inr ⟨j + 1, Nat.succ_lt_succ hj, by omega, hcanon⟩
        · rintro ⟨i, h, rfl, hcond⟩
          cases i with
          | zero =>
            exfalso
            rcases hcond with hseen | ⟨j, hj, hji, _⟩
            · exact hc hseen
            · omega
          | succ i' =>
            refine ⟨i', Nat.lt_of_succ_lt_succ h, by omega, ?_⟩
            rcases hcond with hseen | ⟨j, hj, hji, hcanon⟩
            · exact Or.inl (List.mem_cons_of_mem _ hseen)
            · cases j with
              | zero =>
                refine Or.inl ?_
                show CSVValidator.canonRow
                  (rest.get ⟨i', Nat.lt_of_succ_lt_succ h⟩) ∈
                    CSVValidator.canonRow row :: seen
                have hcanon' : CSVValidator.canonRow row =
                    CSVValidator.canonRow
                      (rest.get ⟨i', Nat.lt_of_succ_lt_succ h⟩) := hcanon
                rw [← hcanon']
                exact List.mem_cons_self _ _
              | succ j' =>
                exact Or.inr ⟨j', Nat.lt_of_succ_lt_succ hj, by omega, hcanon⟩

/-! ### Unfolding lemmas for `validate_csv` and claim-level inputs -/

/-- ASCII text as the byte string handed to the validator. -/
def asciiBytes (s : String) : List Nat := s.data.map Char.toNat

/-- Behavior of `validate_csv` on a byte string whose decode fails. -/
theorem validate_csv_error (file_content : List Nat)
    (categoria descripcion : Option String) (e : String)
    (hdec : utf8Decode file_content = .error e) :
    CSVValidator.validate_csv file_content categoria descripcion = [mkParseError e] := by
  simp [CSVValidator.validate_csv, hdec]

/-- Behavior of `validate_csv` on a byte string that decodes to `text`. -/
theorem validate_csv_ok (file_content : List Nat)
    (categoria descripcion : Option String) (text : List Char)
    (hdec : utf8Decode file_content = .ok text) :
    CSVValidator.validate_csv file_content categoria descripcion =
      CSVValidator.validate_text text := by
  simp [CSVValidator.validate_csv, hdec]

/-- The report always holds at least one finding, whatever branch ran. -/
theorem run_checks_length_pos (rows : List Row) (fieldnames : List String) :
    0 < (CSVValidator.run_checks rows fieldnames).length := by
  have hsucc : ∀ l : List Finding,
      0 < (if l = [] then [successFinding] else l).length := by
    intro l
    by_cases h : l = []
    · simp [h]
    · simpa [h] using List.length_pos.2 h
  simp only [CSVValidator.run_checks]
  cases hdup : CSVValidator.check_duplicates rows with
  | error e => simp [List.length_append]
  | ok v3 => exact hsucc _

/-- C10: `validate_csv` never returns an empty findings list: on every
byte input the report holds a `parse_error`, an `empty_file`, at least
one check finding, or the single `success` finding. -/
theorem C10_report_nonempty (file_content : List Nat)
    (categoria descripcion : Option String) :
    0 < (CSVValidator.validate_csv file_content categoria descripcion).length := by
  cases hdec : utf8Decode file_content with
  | error e => simp [validate_csv_error file_content categoria descripcion e hdec]
  | ok text =>
    rw [validate_csv_ok file_content categoria descripcion text hdec]
    simp only [CSVValidator.validate_text]
    by_cases hrows : dictReaderRows (csvRecords text) = []
    · simp [hrows]
    · simpa [hrows] using run_checks_length_pos _ _

/-- The findings list when `_check_duplicates` raises: the findings of
the two checks that already ran, then the `parse_error` finding. -/
theorem run_checks_dup_error (rows : List Row) (fieldnames : List String) (e : String)
    (hdup : CSVValidator.check_duplicates rows = .error e) :
    CSVValidator.run_checks rows fieldnames =
      ((if CSVValidator.check_empty_values rows fieldnames ≠ [] then
          [emptyValuesFinding (CSVValidator.check_empty_values rows fieldnames)]
        else []) ++
       (if CSVValidator.check_incorrect_types rows fieldnames ≠ [] then
          [incorrectTypesFinding (CSVValidator.check_incorrect_types rows fieldnames)]
        else [])) ++
      [mkParseError e] := by
  simp only [CSVValidator.run_checks, hdup]

/-- C1: a parsing exception does NOT always produce exactly one finding:
on this input the duplicates check raises a `TypeError` (the modelled
`check_duplicates` returns the error), yet the returned report holds TWO
findings — the `empty_values` finding collected before the exception and
then the `parse_error` finding — not exactly the single `parse_error`
finding the claim demands. -/
theorem C1_counterexample :
    (CSVValidator.validate_csv (asciiBytes "a,b\n1,,3,4\n") none none).map
        Finding.validation_type = ["empty_values", "parse_error"] ∧
    CSVValidator.check_duplicates
        (dictReaderRows (csvRecords ("a,b\n1,,3,4\n".data))) =
      .error CSVValidator.typeErrorMsg := by
  constructor
  · decide
  · rfl

/-- C1 (amended): a UTF-8 decode failure yields exactly the single
`parse_error` finding — so for every byte content that is not valid
UTF-8 the result is exactly that one finding — and no exception escapes
(`validate_csv` is total).  But when the exception is raised later, by
the duplicates check, the single `parse_error` finding is appended AFTER
the findings of the checks that already completed, so the report is not
necessarily a single finding. -/
theorem C1_parse_error_amended (file_content : List Nat)
    (categoria descripcion : Option String) :
    (∀ e, utf8Decode file_content = .error e →
      CSVValidator.validate_csv file_content categoria descripcion = [mkParseError e]) ∧
    (∀ text e, utf8Decode file_content = .ok text →
      dictReaderRows (csvRecords text) ≠ [] →
      CSVValidator.check_duplicates (dictReaderRows (csvRecords text)) = .error e →
      ∃ pre, CSVValidator.validate_csv file_content categoria descripcion =
          pre ++ [mkParseError e] ∧
        ∀ f ∈ pre, f.validation_type = "empty_values" ∨
          f.validation_type = "incorrect_types") := by
  constructor
  · intro e hdec
    exact validate_csv_error _ _ _ _ hdec
  · intro text e hdec hrows hdup
    rw [validate_csv_ok _ _ _ _ hdec]
    simp only [CSVValidator.validate_text]
    rw [if_neg hrows, run_checks_dup_error _ _ _ hdup]
    refine ⟨_, rfl, ?_⟩
    intro f hf
    rcases List.mem_append.1 hf with hf | hf
    · left
      split at hf
      · rw [List.mem_singleton.1 hf]; rfl
      · exact absurd hf (List.not_mem_nil f)
    · right
      split at hf
      · rw [List.mem_singleton.1 hf]; rfl
      · exact absurd hf (List.not_mem_nil f)

/-- C1 witness: the amended statement applied at two concrete inputs —
the single byte 0xFF (invalid UTF-8) and a file whose first data row is
longer than the header (duplicates check raises mid-validation). -/
theorem C1_parse_error_amended_witness :
    CSVValidator.validate_csv [255] none none =
      [mkParseError "invalid start byte"] ∧
    ∃ pre, CSVValidator.validate_csv (asciiBytes "a,b\n1,,3,4\n") none none =
        pre ++ [mkParseError CSVValidator.typeErrorMsg] ∧
      ∀ f ∈ pre, f.validation_type = "empty_values" ∨
        f.validation_type = "incorrect_types" :=
  ⟨(C1_parse_error_amended [255] none none).1 "invalid start byte" rfl,
   (C1_parse_error_amended (asciiBytes "a,b\n1,,3,4\n") none none).2
     ("a,b\n1,,3,4\n".data) CSVValidator.typeErrorMsg rfl (by decide) rfl⟩

/-! ### C9: storage failure -/

/-- Substring presence survives extending the text on the right. -/
theorem listHasSub_append_right (h t s : List Char)
    (hh : listHasSub h s = true) : listHasSub (h ++ t) s = true := by
  rw [listHasSub, List.any_eq_true] at hh ⊢
  rcases hh with ⟨u, hu, hpre⟩
  refine ⟨u ++ t, ?_, ?_⟩
  · rw [List.mem_tails] at hu ⊢
    rcases hu with ⟨p, hp⟩
    exact ⟨p, by rw [← List.append_assoc, hp]⟩
  · rw [ List.isPrefixOf_iff_prefix] at hpre ⊢
    exact hpre.trans (List.prefix_append u t)

/-- C9: when the storage collaborator's upload raises, the pipeline
performs no repository call at all (no UploadRecord, no RowRecord) and
raises an external-service failure for service "AWS S3", whose message
names the storage provider. -/
theorem C9_storage_failure (e : String) (newUploadId : Nat)
    (file_content : List Nat) (filename : String) (user_id : Nat)
    (categoria descripcion : Option String) :
    FileService.upload_and_process_csv (.error e) newUploadId file_content
        filename user_id categoria descripcion =
      ([], .error (.externalService e "AWS S3")) ∧
    strContainsSub (PipeError.externalService e "AWS S3").fullMessage "AWS S3" = true := by
  constructor
  · rfl
  · have h1 : (PipeError.externalService e "AWS S3").fullMessage =
        "Error en AWS S3: " ++ e := rfl
    have h2 : ("Error en AWS S3: " ++ e).data =
        "Error en AWS S3: ".data ++ e.data := rfl
    rw [h1, strContainsSub, h2]
    exact listHasSub_append_right _ _ _ (by decide)

/-! ### C8: empty file -/

/-- C8: when the bytes decode but yield zero data rows, `validate_csv`
reports exactly the single `empty_file` error finding (no further checks
run), and the pipeline still runs to completion: it creates the
UploadRecord (carrying the storage key and URL of the successful
upload), persists zero RowRecords, and finishes with status
`completed_with_errors` and row count 0. -/
theorem C8_empty_file (file_content : List Nat) (text : List Char)
    (s3_key s3_url filename : String) (newUploadId user_id : Nat)
    (categoria descripcion : Option String)
    (hdec : utf8Decode file_content = .ok text)
    (hrows : dictReaderRows (csvRecords text) = []) :
    CSVValidator.validate_csv file_content categoria descripcion = [emptyFileFinding] ∧
    FileService.upload_and_process_csv (.ok (s3_key, s3_url)) newUploadId file_content
        filename user_id categoria descripcion =
      ([RepoEvent.createUpload
          { id := newUploadId, original_filename := filename, s3_key := s3_key
            s3_url := s3_url, user_id := user_id, status := "processing"
            validations := some (serializeFindings [emptyFileFinding])
            records_count := 0, categoria := categoria, descripcion := descripcion },
        RepoEvent.updateStatus newUploadId "completed_with_errors"
          (some (serializeFindings [emptyFileFinding])) (some 0)],
       .ok { file_id := newUploadId, filename := filename, s3_url := s3_url
             status := "completed_with_errors", validations := [emptyFileFinding]
             records_count := 0, categoria := categoria
             descripcion := descripcion }) := by
  have hval : CSVValidator.validate_csv file_content categoria descripcion =
      [emptyFileFinding] := by
    rw [validate_csv_ok _ _ _ _ hdec]
    simp only [CSVValidator.validate_text]
    rw [if_pos hrows]
  refine ⟨hval, ?_⟩
  simp only [FileService.upload_and_process_csv, hdec, hval, hrows]
  rfl

/-- C8 witness: the empty byte string. -/
theorem C8_empty_file_witness :
    CSVValidator.validate_csv [] none none = [emptyFileFinding] ∧
    FileService.upload_and_process_csv (.ok ("k", "u")) 1 [] "f.csv" 7 none none =
      ([RepoEvent.createUpload
          { id := 1, original_filename := "f.csv", s3_key := "k"
            s3_url := "u", user_id := 7, status := "processing"
            validations := some (serializeFindings [emptyFileFinding])
            records_count := 0, categoria := none, descripcion := none },
        RepoEvent.updateStatus 1 "completed_with_errors"
          (some (serializeFindings [emptyFileFinding])) (some 0)],
       .ok { file_id := 1, filename := "f.csv", s3_url := "u"
             status := "completed_with_errors", validations := [emptyFileFinding]
             records_count := 0, categoria := none, descripcion := none }) :=
  C8_empty_file [] [] "k" "u" "f.csv" 1 7 none none rfl rfl

/-! ### The successful pipeline run -/

/-- Shape of a run whose storage upload succeeded and whose bytes decode:
the created UploadRecord (status `processing`, zero count, report
attached), one `createRow` per data row, and the final status update. -/
theorem upload_and_process_csv_ok (s3_key s3_url : String) (newUploadId : Nat)
    (file_content : List Nat) (filename : String) (user_id : Nat)
    (categoria descripcion : Option String) (text : List Char)
    (hdec : utf8Decode file_content = .ok text) :
    FileService.upload_and_process_csv (.ok (s3_key, s3_url)) newUploadId file_content
        filename user_id categoria descripcion =
      (RepoEvent.createUpload
          { id := newUploadId, original_filename := filename, s3_key := s3_key
            s3_url := s3_url, user_id := user_id, status := "processing"
            validations := some (serializeFindings
              (CSVValidator.validate_csv file_content categoria descripcion))
            records_count := 0, categoria := categoria, descripcion := descripcion } ::
        ((List.enumFrom 2 (dictReaderRows (csvRecords text))).map
          (fun p => FileService.processRow
            (CSVValidator.validate_csv file_content categoria descripcion)
            newUploadId p.1 p.2)).map RepoEvent.createRow ++
        [RepoEvent.updateStatus newUploadId
          (if (CSVValidator.validate_csv file_content categoria descripcion).all
              (fun v => v.severity ≠ "error") then "completed"
           else "completed_with_errors")
          (some (serializeFindings
            (CSVValidator.validate_csv file_content categoria descripcion)))
          (some (dictReaderRows (csvRecords text)).length)],
       .ok { file_id := newUploadId, filename := filename, s3_url := s3_url
             status :=
               if (CSVValidator.validate_csv file_content categoria descripcion).all
                   (fun v => v.severity ≠ "error") then "completed"
               else "completed_with_errors"
             validations := CSVValidator.validate_csv file_content categoria descripcion
             records_count := (dictReaderRows (csvRecords text)).length
             categoria := categoria, descripcion := descripcion }) := by
  simp only [FileService.upload_and_process_csv, hdec]

/-! ### C4: record creation -/

/-- C4: the claim that the created UploadRecord's validation report is
left unset fails on the code — in this concrete successful run the first
repository call is `createUpload` of a record whose `validations` field
already carries the serialized report (it is not `none`). -/
theorem C4_counterexample :
    (FileService.upload_and_process_csv (.ok ("k", "u")) 1 (asciiBytes "a\n1")
        "f.csv" 7 none none).1.head? =
      some (RepoEvent.createUpload
        { id := 1, original_filename := "f.csv", s3_key := "k", s3_url := "u"
          user_id := 7, status := "processing"
          validations := some (serializeFindings
            (CSVValidator.validate_csv (asciiBytes "a\n1") none none))
          records_count := 0, categoria := none, descripcion := none }) ∧
    some (serializeFindings (CSVValidator.validate_csv (asciiBytes "a\n1") none none)) ≠
      (none : Option String) := by
  exact ⟨by decide, by simp⟩

/-- C4 (amended): in every successful run the UploadRecord is created
first — before any RowRecord persistence — with status `processing` and
row count zero, but with the serialized validation report already
attached at creation (not left unset); the final update of step 5 then
writes the report again together with the final status and count. -/
theorem C4_upload_record_amended (s3_key s3_url : String) (newUploadId : Nat)
    (file_content : List Nat) (filename : String) (user_id : Nat)
    (categoria descripcion : Option String) (text : List Char)
    (hdec : utf8Decode file_content = .ok text) :
    ∃ fu rowEvents out,
      FileService.upload_and_process_csv (.ok (s3_key, s3_url)) newUploadId
          file_content filename user_id categoria descripcion =
        (RepoEvent.createUpload fu :: rowEvents ++
          [RepoEvent.updateStatus newUploadId out.status
            (some (serializeFindings out.validations)) (some out.records_count)],
         .ok out) ∧
      fu.status = "processing" ∧ fu.records_count = 0 ∧
      fu.validations = some (serializeFindings
        (CSVValidator.validate_csv file_content categoria descripcion)) ∧
      out.validations = CSVValidator.validate_csv file_content categoria descripcion ∧
      ∀ ev ∈ rowEvents, ∃ r, ev = RepoEvent.createRow r := by
  refine ⟨_, _,
    { file_id := newUploadId, filename := filename, s3_url := s3_url
      status :=
        if (CSVValidator.validate_csv file_content categoria descripcion).all
            (fun v => v.severity ≠ "error") then "completed"
        else "completed_with_errors"
      validations := CSVValidator.validate_csv file_content categoria descripcion
      records_count := (dictReaderRows (csvRecords text)).length
      categoria := categoria, descripcion := descripcion },
    upload_and_process_csv_ok s3_key s3_url newUploadId file_content filename
      user_id categoria descripcion text hdec, rfl, rfl, rfl, rfl, ?_⟩
  intro ev hev
  rcases List.mem_map.1 hev with ⟨r, _, rfl⟩
  exact ⟨r, rfl⟩

/-- C4 witness: the amended statement at a concrete one-row file. -/
theorem C4_upload_record_amended_witness :
    ∃ fu rowEvents out,
      FileService.upload_and_process_csv (.ok ("k", "u")) 1
          (asciiBytes "a\n1") "f.csv" 7 none none =
        (RepoEvent.createUpload fu :: rowEvents ++
          [RepoEvent.updateStatus 1 out.status
            (some (serializeFindings out.validations)) (some out.records_count)],
         .ok out) ∧
      fu.status = "processing" ∧ fu.records_count = 0 ∧
      fu.validations = some (serializeFindings
        (CSVValidator.validate_csv (asciiBytes "a\n1") none none)) ∧
      out.validations = CSVValidator.validate_csv (asciiBytes "a\n1") none none ∧
      ∀ ev ∈ rowEvents, ∃ r, ev = RepoEvent.createRow r :=
  C4_upload_record_amended "k" "u" 1 (asciiBytes "a\n1") "f.csv" 7 none none
    ("a\n1".data) rfl

/-! ### C5: per-row validity -/

/-- The test `any (errorHits n)` is "some error-severity finding references row n". -/
theorem any_errorHits_iff (vs : List Finding) (n : Nat) :
    vs.any (errorHits n) = true ↔
      ∃ v ∈ vs, v.severity = "error" ∧ n ∈ v.affected_rows := by
  rw [List.any_eq_true]
  constructor
  · rintro ⟨v, hv, h⟩
    simp only [errorHits, Bool.and_eq_true, decide_eq_true_eq] at h
    exact ⟨v, hv, h.2, h.1⟩
  · rintro ⟨v, hv, hsev, hmem⟩
    exact ⟨v, hv, by simp [errorHits, hsev, hmem]⟩

/-- What one loop iteration persists for row `n`: invalid exactly when an
error finding references `n`, the flag is always the serialized Boolean,
and the attached messages are exactly those of the error findings that
reference `n`. -/
theorem processRow_spec (vs : List Finding) (uploadId n : Nat) (row : Row) :
    ((FileService.processRow vs uploadId n row).is_valid = "false" ↔
      ∃ v ∈ vs, v.severity = "error" ∧ n ∈ v.affected_rows) ∧
    ((FileService.processRow vs uploadId n row).is_valid = "true" ∨
      (FileService.processRow vs uploadId n row).is_valid = "false") ∧
    (FileService.processRow vs uploadId n row).validation_errors =
      (if ((vs.filter (errorHits n)).map Finding.message) = [] then none
       else some (serializeMessages ((vs.filter (errorHits n)).map Finding.message))) := by
  have hfst : (FileService.processRow vs uploadId n row).is_valid =
      if vs.any (errorHits n) then "false" else "true" := by
    simp only [FileService.processRow]
    exact rowCheck_fst vs n
  refine ⟨?_, ?_, ?_⟩
  · rw [hfst]
    by_cases hany : vs.any (errorHits n) = true
    · rw [if_pos hany]
      exact iff_of_true rfl ((any_errorHits_iff vs n).1 hany)
    · rw [if_neg hany]
      refine iff_of_false (by decide) ?_
      intro hcontra
      exact hany ((any_errorHits_iff vs n).2 hcontra)
  · rw [hfst]
    by_cases hany : vs.any (errorHits n) = true
    · rw [if_pos hany]
      right
      rfl
    · rw [if_neg hany]
      left
      rfl
  · simp only [FileService.processRow]
    rw [rowCheck_snd vs n]

/-- C5: every RowRecord persisted in a successful run stores
`is_valid = "false"` exactly when some error-severity finding lists its
row number, stores `"true"` otherwise, and its `validation_errors` field
is exactly the serialized messages of the error-severity findings that
reference that row (absent when there are none) — warning/info findings
never mark a row invalid and are never attached. -/
theorem C5_row_validity (s3_key s3_url : String) (newUploadId : Nat)
    (file_content : List Nat) (filename : String) (user_id : Nat)
    (categoria descripcion : Option String) (text : List Char)
    (hdec : utf8Decode file_content = .ok text) (r : CSVRecord)
    (hr : RepoEvent.createRow r ∈
      (FileService.upload_and_process_csv (.ok (s3_key, s3_url)) newUploadId
        file_content filename user_id categoria descripcion).1) :
    (r.is_valid = "false" ↔
      ∃ v ∈ CSVValidator.validate_csv file_content categoria descripcion,
        v.severity = "error" ∧ r.row_number ∈ v.affected_rows) ∧
    (r.is_valid = "true" ∨ r.is_valid = "false") ∧
    r.validation_errors =
      (if (((CSVValidator.validate_csv file_content categoria descripcion).filter
            (errorHits r.row_number)).map Finding.message) = [] then none
       else some (serializeMessages
        (((CSVValidator.validate_csv file_content categoria descripcion).filter
            (errorHits r.row_number)).map Finding.message))) := by
  rw [upload_and_process_csv_ok s3_key s3_url newUploadId file_content filename
    user_id categoria descripcion text hdec] at hr
  rcases List.mem_cons.1 hr with h | hr2
  · exact absurd h (by simp)
  rcases List.mem_append.1 hr2 with hr3 | hlast
  · rcases List.mem_map.1 hr3 with ⟨a, ha, haeq⟩
    rcases List.mem_map.1 ha with ⟨p, hp, hpa⟩
    obtain rfl : FileService.processRow
        (CSVValidator.validate_csv file_content categoria descripcion)
        newUploadId p.1 p.2 = r := by
      rw [hpa]
      injection haeq
    exact processRow_spec _ _ _ _
  · exact absurd (List.mem_singleton.1 hlast) (by simp)

/-- C5 witness: on a file whose `id` column holds a non-numeric value,
the persisted row record for row 2 is marked invalid, by the theorem
applied at that concrete run. -/
theorem C5_row_validity_witness :
    (FileService.processRow
      (CSVValidator.validate_csv (asciiBytes "id,a\nx,y") none none) 1 2
      (dictRow ["id", "a"] ["x", "y"])).is_valid = "false" := by
  have h := C5_row_validity "k" "u" 1 (asciiBytes "id,a\nx,y") "f.csv" 7
    none none ("id,a\nx,y".data) rfl
    (FileService.processRow
      (CSVValidator.validate_csv (asciiBytes "id,a\nx,y") none none) 1 2
      (dictRow ["id", "a"] ["x", "y"]))
    (by decide)
  exact h.1.mpr ⟨incorrectTypesFinding [2], by decide, by decide, by decide⟩

/-! ### C6: final status -/

/-- Recognizer for `createRow` events. -/
def isCreateRowEvent : RepoEvent → Bool
  | .createRow _ => true
  | _ => false

/-- C6: a successful run returns a payload whose status is `completed`
exactly when no finding has severity `error` and `completed_with_errors`
otherwise, whose row count is the number of data rows, and whose trace
persisted exactly that many RowRecords. -/
theorem C6_final_status (s3_key s3_url : String) (newUploadId : Nat)
    (file_content : List Nat) (filename : String) (user_id : Nat)
    (categoria descripcion : Option String) (text : List Char)
    (hdec : utf8Decode file_content = .ok text) :
    ∃ out,
      (FileService.upload_and_process_csv (.ok (s3_key, s3_url)) newUploadId
        file_content filename user_id categoria descripcion).2 = .ok out ∧
      (out.status = "completed" ↔
        ∀ v ∈ CSVValidator.validate_csv file_content categoria descripcion,
          v.severity ≠ "error") ∧
      (out.status = "completed" ∨ out.status = "completed_with_errors") ∧
      out.records_count = (dictReaderRows (csvRecords text)).length ∧
      ((FileService.upload_and_process_csv (.ok (s3_key, s3_url)) newUploadId
          file_content filename user_id categoria descripcion).1.countP
        isCreateRowEvent) = out.records_count := by
  rw [upload_and_process_csv_ok s3_key s3_url newUploadId file_content filename
    user_id categoria descripcion text hdec]
  refine ⟨_, rfl, ?_, ?_, rfl, ?_⟩
  · by_cases hall : (CSVValidator.validate_csv file_content categoria
        descripcion).all (fun v => v.severity ≠ "error") = true
    · rw [if_pos hall]
      refine iff_of_true rfl ?_
      intro v hv
      simpa using (List.all_eq_true.1 hall) v hv
    · rw [if_neg hall]
      refine iff_of_false ?_ ?_
      · show ¬("completed_with_errors" = "completed")
        decide
      · intro hcontra
        refine hall (List.all_eq_true.2 ?_)
        intro v hv
        simpa using hcontra v hv
  · by_cases hall : (CSVValidator.validate_csv file_content categoria
        descripcion).all (fun v => v.severity ≠ "error") = true
    · rw [if_pos hall]
      exact Or.inl rfl
    · rw [if_neg hall]
      exact Or.inr rfl
  · simp only [List.countP_cons, List.countP_append, List.countP_map]
    have hcomp : ((isCreateRowEvent ∘ RepoEvent.createRow) ∘ fun p : Nat × Row =>
        FileService.processRow
          (CSVValidator.validate_csv file_content categoria descripcion)
          newUploadId p.1 p.2) = fun _ => true := rfl
    rw [hcomp]
    simp [isCreateRowEvent, List.countP_true, List.enumFrom_length]

/-- C6 witness: a run whose findings are only warnings (`empty_values`
on rows 2 and 4, `duplicates` on row 4) ends with status `completed`
and all 3 rows persisted. -/
theorem C6_final_status_witness :
    (match (FileService.upload_and_process_csv (.ok ("k", "u")) 1
        (asciiBytes "id,nombre,email\n1,,juan@test.com\n2,Maria,maria@test.com\n1,,juan@test.com")
        "f.csv" 7 none none).2 with
     | .ok out => out.status = "completed" ∧ out.records_count = 3
     | .error _ => False) := by
  obtain ⟨out, hout, hiff, hor, hcnt, hall⟩ := C6_final_status "k" "u" 1
    (asciiBytes "id,nombre,email\n1,,juan@test.com\n2,Maria,maria@test.com\n1,,juan@test.com")
    "f.csv" 7 none none
    ("id,nombre,email\n1,,juan@test.com\n2,Maria,maria@test.com\n1,,juan@test.com".data)
    rfl
  rw [hout]
  exact ⟨hiff.mpr (by decide), hcnt.trans (by decide)⟩

/-! ### C2: empty values -/

/-- C2: the claim that a source row shorter than the header is treated
as having empty values fails on the code — the reader pads the missing
field with the `None` sentinel, `str(None)` is `"None"`, and the row is
NOT flagged, even though it has fewer cells than the header. -/
theorem C2_counterexample :
    List.length ["x"] < List.length ["a", "b"] ∧
    CSVValidator.check_empty_values [dictRow ["a", "b"] ["x"]] ["a", "b"] = [] := by
  exact ⟨by decide, by decide⟩

/-- C2 (amended): EmptyValues flags a row exactly when some header
column's value is a present string that strips to empty, or the key is
absent from the row dict entirely (the `row.get(field, "")` default);
the `None` padding a short source row receives stringifies to `"None"`
and is never treated as empty. -/
theorem C2_empty_values_amended (rows : List Row) (fieldnames : List String) (n : Nat) :
    n ∈ CSVValidator.check_empty_values rows fieldnames ↔
      ∃ i, ∃ h : i < rows.length, n = 2 + i ∧
        ∃ field ∈ fieldnames,
          (match (rows.get ⟨i, h⟩).find? (fun kv => kv.1 = some field) with
           | none => True
           | some kv =>
             match kv.2 with
             | .vStr s => pyStrip s = ""
             | .vNone => False
             | .vList xs => pyStrip (pyStr (.vList xs)) = "") := by
  rw [mem_check_empty_values]
  refine exists_congr fun i => ?_
  refine exists_congr fun h => ?_
  refine and_congr_right fun _ => ?_
  rw [CSVValidator.rowHasEmpty, List.any_eq_true]
  refine exists_congr fun field => ?_
  refine and_congr_right fun hfield => ?_
  rw [decide_eq_true_eq]
  simp only [pyDictGet]
  cases hfind : (rows.get ⟨i, h⟩).find? (fun kv => kv.1 = some field) with
  | none =>
    exact iff_of_true rfl trivial
  | some kv =>
    show pyStrip (pyStr kv.2) = "" ↔
      (match kv.2 with
       | PyVal.vStr s => pyStrip s = ""
       | PyVal.vNone => False
       | PyVal.vList xs => pyStrip (pyStr (PyVal.vList xs)) = "")
    rcases kv with ⟨k, v⟩
    cases v with
    | vStr s => exact Iff.rfl
    | vNone =>
      refine iff_of_false ?_ False.elim
      show ¬(pyStrip "None" = "")
      decide
    | vList xs => exact Iff.rfl

/-! ### C3: invalid format -/

/-- C3: the claim that a short source row is flagged by InvalidFormat
fails on the code — the reader pads the single-cell row back to the full
header width, so its dict size equals the header size and the row is
not flagged, although its physical cell count differs from the header
count. -/
theorem C3_counterexample :
    List.length ["x"] ≠ List.length ["c", "d"] ∧
    CSVValidator.check_invalid_format [dictRow ["c", "d"] ["x"]] ["c", "d"] = [] := by
  exact ⟨by decide, by decide⟩

/-- C3 (amended): over the rows the dict reader builds from source
records under a duplicate-free header, InvalidFormat flags exactly the
rows with MORE cells than the header (the rest-key entry makes the dict
one larger); short rows are padded to the header width and never
flagged. -/
theorem C3_invalid_format_amended (records : List (List String))
    (fieldnames : List String) (hf : fieldnames.Nodup) (n : Nat) :
    n ∈ CSVValidator.check_invalid_format (records.map (dictRow fieldnames))
        fieldnames ↔
      ∃ i, ∃ h : i < records.length, n = 2 + i ∧
        fieldnames.length < (records.get ⟨i, h⟩).length := by
  rw [mem_check_invalid_format]
  constructor
  · rintro ⟨i, h, rfl, hlen⟩
    have h' : i < records.length := by simpa using h
    refine ⟨i, h', rfl, ?_⟩
    rw [List.get_map] at hlen
    rw [dictRow_length _ _ hf] at hlen
    by_cases hlt : fieldnames.length < (records.get ⟨i, h'⟩).length
    · exact hlt
    · rw [if_neg ?_] at hlen
      · exact absurd rfl hlen
      · exact fun hc => hlt (by simpa using hc)
  · rintro ⟨i, h, rfl, hlt⟩
    have h' : i < (records.map (dictRow fieldnames)).length := by simpa using h
    refine ⟨i, h', rfl, ?_⟩
    rw [List.get_map, dictRow_length _ _ hf]
    rw [if_pos (by simpa using hlt)]
    omega

/-- C3 witness: a three-cell row under a two-column header is flagged,
by the amended theorem at that concrete input. -/
theorem C3_invalid_format_amended_witness :
    2 ∈ CSVValidator.check_invalid_format
        ([["1", "2", "3"]].map (dictRow ["a", "b"])) ["a", "b"] :=
  (C3_invalid_format_amended [["1", "2", "3"]] ["a", "b"] (by decide) 2).mpr
    ⟨0, by decide, by decide, by decide⟩

/-! ### C7: duplicates -/

/-- C7: on hashable rows with duplicate-free keys (every table the dict
reader produces without long rows), the Duplicates check succeeds and
flags a row exactly when an identical set of (column, value) pairs — an
order-independent permutation of the row's items — occurred at an
earlier row; first occurrences are never flagged. -/
theorem C7_duplicates (rows : List Row)
    (hhash : ∀ r ∈ rows, CSVValidator.rowUnhashable r = false)
    (hkeys : ∀ r ∈ rows, (r.map Prod.fst).Nodup) :
    ∃ l, CSVValidator.check_duplicates rows = .ok l ∧
      ∀ n, n ∈ l ↔ ∃ i, ∃ h : i < rows.length, n = 2 + i ∧
        ∃ j, ∃ hj : j < rows.length, j < i ∧
          List.Perm (rows.get ⟨j, hj⟩) (rows.get ⟨i, h⟩) := by
  obtain ⟨l, hl, hmem⟩ := check_duplicates_go_spec rows 2 [] hhash
  refine ⟨l, hl, fun n => ?_⟩
  rw [hmem n]
  refine exists_congr fun i => ?_
  refine exists_congr fun h => ?_
  refine and_congr_right fun _ => ?_
  constructor
  · rintro (hseen | ⟨j, hj, hji, hcanon⟩)
    · exact absurd hseen (List.not_mem_nil _)
    · exact ⟨j, hj, hji,
        (canonRow_eq_iff _ _ (hkeys _ (List.get_mem rows _ hj))).1 hcanon⟩
  · rintro ⟨j, hj, hji, hperm⟩
    exact Or.inr ⟨j, hj, hji,
      (canonRow_eq_iff _ _ (hkeys _ (List.get_mem rows _ hj))).2 hperm⟩

/-- The table [A, B, A] used to witness C7. -/
def c7rows : List Row :=
  [[(some "x", PyVal.vStr "1")], [(some "x", PyVal.vStr "2")],
   [(some "x", PyVal.vStr "1")]]

/-- C7 witness: for the rows [A, B, A] the check returns exactly [4] —
the row number of the second A, never the first — and the theorem's
characterization holds at that input. -/
theorem C7_duplicates_witness :
    CSVValidator.check_duplicates c7rows = .ok [4] ∧
    (∃ l, CSVValidator.check_duplicates c7rows = .ok l ∧
      ∀ n, n ∈ l ↔ ∃ i, ∃ h : i < c7rows.length, n = 2 + i ∧
        ∃ j, ∃ hj : j < c7rows.length, j < i ∧
          List.Perm (c7rows.get ⟨j, hj⟩) (c7rows.get ⟨i, h⟩)) :=
  ⟨rfl, C7_duplicates c7rows (by decide) (by decide)⟩
